import Mathlib

/-!
# Verification of the WebXRTest utility scripts

A shallow embedding of the two scripts in this repository:

* `add_border.py` — `add_border(input_path, output_path, border_ratio)`:
  opens an image, computes border sizes `int(width * border_ratio)` and
  `int(height * border_ratio)`, expands the canvas by that many pixels on
  every side, saves the result, prints the new size and the width ratio
  `(width + 2 * border_width) / width`; every exception is caught at the
  top level and printed as `Error: ...`.
* `merge_json.py` — concatenates the three external record lists
  `data1 + data2 + data3`, serializes the result as indented JSON to
  `public/scene.json`, and prints the merged record count; no error
  handling, failures propagate and the interpreter exits non-zero.

Images are modelled by their pixel dimensions (the spec's data model:
an opaque artifact with width and height).  Real-number arithmetic
(`border_ratio`) is modelled over `ℚ`; Python's `int()` truncation toward
zero is `pyInt`.  The external collaborators (PIL's open/save, the file
system, the `json` facility) are modelled as environments of fallible
operations; an uncaught Python exception is an `Option String` component
of the result, and observable behaviour is a list of events (file writes
and prints).
-/

/-- A PIL image, modelled by its pixel dimensions (the repository treats
the image as an opaque value with `width` and `height`). -/
structure PILImage where
  width : Nat
  height : Nat
deriving DecidableEq, Repr

/-- Python's `int()` applied to a (real-valued) number: truncation toward
zero.  For the nonnegative arguments produced by `add_border` this is the
floor. -/
def pyInt (q : ℚ) : ℤ :=
  if 0 ≤ q then ⌊q⌋ else ⌈q⌉

/-- `border_width = int(img.width * border_ratio)` (add_border.py line 7). -/
def border_width (img : PILImage) (border_ratio : ℚ) : ℤ :=
  pyInt ((img.width : ℚ) * border_ratio)

/-- `border_height = int(img.height * border_ratio)` (add_border.py line 8). -/
def border_height (img : PILImage) (border_ratio : ℚ) : ℤ :=
  pyInt ((img.height : ℚ) * border_ratio)

/-- `ImageOps.expand(img, border=(bw, bh), fill='white')`: a canvas `bw`
pixels wider on the left and right and `bh` pixels taller on the top and
bottom (dimension behaviour of the PIL call). -/
def expand (img : PILImage) (bw bh : ℤ) : PILImage :=
  ⟨((img.width : ℤ) + 2 * bw).toNat, ((img.height : ℤ) + 2 * bh).toNat⟩

/-- `img_with_border` (add_border.py line 11): the image that `add_border`
saves to `output_path`. -/
def img_with_border (img : PILImage) (border_ratio : ℚ) : PILImage :=
  expand img (border_width img border_ratio) (border_height img border_ratio)

/-- `ratio = (img.width + 2 * border_width) / img.width`
(add_border.py line 19), over exact arithmetic. -/
def widthRatio (img : PILImage) (border_ratio : ℚ) : ℚ :=
  ((img.width : ℚ) + 2 * (border_width img border_ratio : ℚ)) / (img.width : ℚ)

/-- The external collaborators of `add_border`: `Image.open` and
`Image.save`, each of which may raise (missing file, unsupported format,
I/O error). -/
structure PILEnv where
  openImage : String → Except String PILImage
  saveImage : String → PILImage → Except String Unit

/-- An observable effect of `add_border`: a file written, or one of the
three print statements. -/
inductive Event where
  | wrote (path : String) (img : PILImage)
  | printedCreated (path : String) (width height : Nat)
  | printedRatio (ratio : ℚ)
  | printedError (msg : String)
deriving DecidableEq, Repr

/-- The `try` body of `add_border` (add_border.py lines 5-20): the events
it emits, paired with the exception it raises, if any.  Opening and saving
may fail through the environment; the ratio computation raises
`ZeroDivisionError` when the image width is zero. -/
def add_border_body (env : PILEnv) (input_path output_path : String)
    (border_ratio : ℚ) : List Event × Option String :=
  match env.openImage input_path with
  | .error e => ([], some e)
  | .ok img =>
    let out := img_with_border img border_ratio
    match env.saveImage output_path out with
    | .error e => ([], some e)
    | .ok _ =>
      if img.width = 0 then
        ([.wrote output_path out, .printedCreated output_path out.width out.height],
          some "division by zero")
      else
        ([.wrote output_path out, .printedCreated output_path out.width out.height,
          .printedRatio (widthRatio img border_ratio)], none)

/-- `add_border(input_path, output_path, border_ratio)` (add_border.py
lines 3-23): runs the `try` body; any exception is caught and printed as
`Error: ...`, and the function returns normally — its result is a plain
event list with no exception component. -/
def add_border (env : PILEnv) (input_path output_path : String)
    (border_ratio : ℚ) : List Event :=
  match add_border_body env input_path output_path border_ratio with
  | (events, some e) => events ++ [.printedError ("Error: " ++ e)]
  | (events, none) => events

/-! ## Arithmetic helper lemmas -/

/-- On nonnegative arguments Python's `int()` is the floor. -/
theorem pyInt_eq_floor (q : ℚ) (hq : 0 ≤ q) : pyInt q = ⌊q⌋ := by
  simp [pyInt, hq]

/-- The border width is the floor of `width * border_ratio` when the ratio
is nonnegative. -/
theorem border_width_eq_floor (img : PILImage) (r : ℚ) (hr : 0 ≤ r) :
    border_width img r = ⌊(img.width : ℚ) * r⌋ :=
  pyInt_eq_floor _ (mul_nonneg (by positivity) hr)

/-- The border height is the floor of `height * border_ratio` when the
ratio is nonnegative. -/
theorem border_height_eq_floor (img : PILImage) (r : ℚ) (hr : 0 ≤ r) :
    border_height img r = ⌊(img.height : ℚ) * r⌋ :=
  pyInt_eq_floor _ (mul_nonneg (by positivity) hr)

theorem border_width_nonneg (img : PILImage) (r : ℚ) (hr : 0 ≤ r) :
    0 ≤ border_width img r := by
  rw [border_width_eq_floor img r hr]
  exact Int.floor_nonneg.mpr (mul_nonneg (by positivity) hr)

theorem border_height_nonneg (img : PILImage) (r : ℚ) (hr : 0 ≤ r) :
    0 ≤ border_height img r := by
  rw [border_height_eq_floor img r hr]
  exact Int.floor_nonneg.mpr (mul_nonneg (by positivity) hr)

/-! ## Claims about `add_border` -/

/-- **C1.** For every valid input image of width `w > 0` and height
`h > 0` and every `border_ratio` `r ≥ 0`, the image `add_border` produces
(the one it writes to `output_path`) has width exactly
`w + 2 * ⌊w * r⌋` and height exactly `h + 2 * ⌊h * r⌋`. -/
theorem add_border_output_dims (img : PILImage) (r : ℚ)
    (hw : 0 < img.width) (hh : 0 < img.height) (hr : 0 ≤ r) :
    (img_with_border img r).width
        = img.width + 2 * (⌊(img.width : ℚ) * r⌋).toNat ∧
    (img_with_border img r).height
        = img.height + 2 * (⌊(img.height : ℚ) * r⌋).toNat ∧
    ∀ (env : PILEnv) (i o : String),
      env.openImage i = .ok img →
      env.saveImage o (img_with_border img r) = .ok () →
      Event.wrote o (img_with_border img r) ∈ add_border env i o r := by
  have hbw := border_width_nonneg img r hr
  have hbh := border_height_nonneg img r hr
  refine ⟨?_, ?_, ?_⟩
  · show (((img.width : ℤ) + 2 * border_width img r).toNat)
        = img.width + 2 * (⌊(img.width : ℚ) * r⌋).toNat
    rw [border_width_eq_floor img r hr]
    rw [border_width_eq_floor img r hr] at hbw
    omega
  · show (((img.height : ℤ) + 2 * border_height img r).toNat)
        = img.height + 2 * (⌊(img.height : ℚ) * r⌋).toNat
    rw [border_height_eq_floor img r hr]
    rw [border_height_eq_floor img r hr] at hbh
    omega
  · intro env i o hopen hsave
    have hw' : img.width ≠ 0 := Nat.pos_iff_ne_zero.mp hw
    simp [add_border, add_border_body, hopen, hsave, hw']

/-- Witness for C1: a 100×80 image with `border_ratio = 1/4` gains a
25-pixel border on the left and right and a 20-pixel border on the top
and bottom. -/
theorem add_border_output_dims_witness :
    (0 : Nat) < 100 ∧ (0 : Nat) < 80 ∧ (0 : ℚ) ≤ 1 / 4 ∧
    ((img_with_border ⟨100, 80⟩ (1 / 4)).width
        = 100 + 2 * (⌊(100 : ℚ) * (1 / 4)⌋).toNat ∧
      (img_with_border ⟨100, 80⟩ (1 / 4)).height
        = 80 + 2 * (⌊(80 : ℚ) * (1 / 4)⌋).toNat) := by
  have h := add_border_output_dims ⟨100, 80⟩ (1 / 4)
    (by norm_num) (by norm_num) (by norm_num)
  exact ⟨by norm_num, by norm_num, by norm_num, h.1, h.2.1⟩

/-- **C4.** For every input image of width `w > 0` and every
`border_ratio` `r ≥ 0`, the width ratio `add_border` prints equals
exactly `(w + 2 * ⌊w * r⌋) / w`. -/
theorem add_border_width_ratio (img : PILImage) (r : ℚ)
    (hw : 0 < img.width) (hr : 0 ≤ r) :
    widthRatio img r
        = ((img.width : ℚ) + 2 * (⌊(img.width : ℚ) * r⌋ : ℤ)) / (img.width : ℚ) ∧
    ∀ (env : PILEnv) (i o : String),
      env.openImage i = .ok img →
      env.saveImage o (img_with_border img r) = .ok () →
      Event.printedRatio (widthRatio img r) ∈ add_border env i o r := by
  constructor
  · rw [widthRatio, border_width_eq_floor img r hr]
  · intro env i o hopen hsave
    have hw' : img.width ≠ 0 := Nat.pos_iff_ne_zero.mp hw
    simp [add_border, add_border_body, hopen, hsave, hw']

/-- Witness for C4: a 7-pixel-wide image with `border_ratio = 1/5` has
printed width ratio `(7 + 2 * 1) / 7 = 9/7`. -/
theorem add_border_width_ratio_witness :
    (0 : Nat) < 7 ∧ (0 : ℚ) ≤ 1 / 5 ∧
    widthRatio ⟨7, 7⟩ (1 / 5)
        = ((7 : ℚ) + 2 * (⌊(7 : ℚ) * (1 / 5)⌋ : ℤ)) / (7 : ℚ) := by
  have h := add_border_width_ratio ⟨7, 7⟩ (1 / 5) (by norm_num) (by norm_num)
  exact ⟨by norm_num, by norm_num, h.1⟩

/-- **C7.** With `border_ratio = 0` the image `add_border` produces has
exactly the input's width and height. -/
theorem add_border_ratio_zero_dims (img : PILImage) :
    (img_with_border img 0).width = img.width ∧
    (img_with_border img 0).height = img.height := by
  have hbw : border_width img 0 = 0 := by
    simp [border_width, pyInt]
  have hbh : border_height img 0 = 0 := by
    simp [border_height, pyInt]
  constructor
  · show (((img.width : ℤ) + 2 * border_width img 0).toNat) = img.width
    rw [hbw]; omega
  · show (((img.height : ℤ) + 2 * border_height img 0).toNat) = img.height
    rw [hbh]; omega

/-- **C3.** Every exception raised inside `add_border`'s `try` body (open,
compute, or save) is caught, converted to a printed `Error: ...` message
appended to the events already emitted, and `add_border` returns normally
(its result is a plain event list; no exception escapes); when the body
raises nothing, no error message is printed. -/
theorem add_border_catches_all (env : PILEnv) (i o : String) (r : ℚ) :
    (∀ e, (add_border_body env i o r).2 = some e →
        add_border env i o r
          = (add_border_body env i o r).1 ++ [.printedError ("Error: " ++ e)]) ∧
    ((add_border_body env i o r).2 = none →
        add_border env i o r = (add_border_body env i o r).1) := by
  constructor
  · intro e he
    rw [add_border]
    rcases hbody : add_border_body env i o r with ⟨events, exc⟩
    rw [hbody] at he
    simp only at he
    rw [he]
  · intro hnone
    rw [add_border]
    rcases hbody : add_border_body env i o r with ⟨events, exc⟩
    rw [hbody] at hnone
    simp only at hnone
    rw [hnone]

/-- An environment in which opening any image fails (e.g. the input path
does not exist) with the given message. -/
def openFailEnv (msg : String) : PILEnv :=
  ⟨fun _ => .error msg, fun _ _ => .ok ()⟩

/-- Witness for C3: with a missing input file, `add_border` returns the
single printed error message rather than raising. -/
theorem add_border_catches_all_witness :
    (add_border_body (openFailEnv "No such file or directory") "public/tag25h9-origin.png"
        "public/tag-with-border.png" (1 / 4)).2 = some "No such file or directory" ∧
    add_border (openFailEnv "No such file or directory") "public/tag25h9-origin.png"
        "public/tag-with-border.png" (1 / 4)
      = [.printedError "Error: No such file or directory"] := by
  have h := (add_border_catches_all (openFailEnv "No such file or directory")
    "public/tag25h9-origin.png" "public/tag-with-border.png" (1 / 4)).1
    "No such file or directory" rfl
  exact ⟨rfl, by simpa using h⟩

/-- **C10.** When opening the input image fails, `add_border` attempts no
write, prints no dimensions line and no ratio line: its only observable
effect is the single printed error message. -/
theorem add_border_open_fail_effects (env : PILEnv) (i o : String) (r : ℚ)
    (e : String) (hopen : env.openImage i = .error e) :
    add_border env i o r = [.printedError ("Error: " ++ e)] ∧
    (∀ p im, Event.wrote p im ∉ add_border env i o r) ∧
    (∀ p w h, Event.printedCreated p w h ∉ add_border env i o r) ∧
    (∀ q, Event.printedRatio q ∉ add_border env i o r) := by
  have hres : add_border env i o r = [.printedError ("Error: " ++ e)] := by
    simp [add_border, add_border_body, hopen]
  refine ⟨hres, ?_, ?_, ?_⟩
  · intro p im hmem; rw [hres] at hmem; simp at hmem
  · intro p w h hmem; rw [hres] at hmem; simp at hmem
  · intro q hmem; rw [hres] at hmem; simp at hmem

/-- Witness for C10: with a missing input file, the trace is exactly one
error print and contains no write event. -/
theorem add_border_open_fail_effects_witness :
    (openFailEnv "boom").openImage "in.png" = .error "boom" ∧
    add_border (openFailEnv "boom") "in.png" "out.png" (1 / 4)
      = [.printedError "Error: boom"] ∧
    Event.wrote "out.png" ⟨1, 1⟩ ∉
      add_border (openFailEnv "boom") "in.png" "out.png" (1 / 4) := by
  have h := add_border_open_fail_effects (openFailEnv "boom") "in.png" "out.png"
    (1 / 4) "boom" rfl
  exact ⟨rfl, by simpa using h.1, h.2.1 "out.png" ⟨1, 1⟩⟩

/-! ## The `merge_json.py` script

The three record lists `data1`, `data2`, `data3` come from the external
modules `part1`, `part2`, `part3`, whose record shape the merge never
inspects; records are therefore an opaque type `α`. -/

/-- `full_data = data1 + data2 + data3` (merge_json.py line 6). -/
def full_data {α : Type} (data1 data2 data3 : List α) : List α :=
  data1 ++ data2 ++ data3

/-- The external collaborators of `merge_json.py`: opening
`public/scene.json` for writing, and `json.dump` of the merged list, each
of which may raise. -/
structure MergeEnv (α : Type) where
  openScene : Except String Unit
  dump : List α → Except String Unit

/-- An observable effect of `merge_json.py`: the merged data written to
`public/scene.json`, or the printed record count. -/
inductive MEvent (α : Type) where
  | wrote (path : String) (data : List α)
  | printedCount (n : Nat)
deriving DecidableEq

/-- `merge_json.py` lines 6-11: concatenate, open the output file, dump,
print the count.  There is no `try`: the result keeps an explicit
uncaught-exception component, and a failing step emits no further
events. -/
def merge_json {α : Type} (env : MergeEnv α) (data1 data2 data3 : List α) :
    List (MEvent α) × Option String :=
  match env.openScene with
  | .error e => ([], some e)
  | .ok _ =>
    match env.dump (full_data data1 data2 data3) with
    | .error e => ([], some e)
    | .ok _ =>
      ([.wrote "public/scene.json" (full_data data1 data2 data3),
        .printedCount (full_data data1 data2 data3).length], none)

/-- The interpreter's exit status for the script: 0 on a normal run, 1
(non-zero) when an exception propagates uncaught. -/
def exitCode {α : Type} (run : List (MEvent α) × Option String) : Nat :=
  match run.2 with
  | some _ => 1
  | none => 0

/-- **C2.** The merged sequence has exactly `a + b + c` elements and its
order is all of sequence 1, then all of sequence 2, then all of
sequence 3. -/
theorem full_data_length_and_order {α : Type} (d1 d2 d3 : List α) :
    (full_data d1 d2 d3).length = d1.length + d2.length + d3.length ∧
    (∀ i, i < d1.length → (full_data d1 d2 d3)[i]? = d1[i]?) ∧
    (∀ i, i < d2.length → (full_data d1 d2 d3)[d1.length + i]? = d2[i]?) ∧
    (∀ i, i < d3.length →
      (full_data d1 d2 d3)[d1.length + d2.length + i]? = d3[i]?) := by
  refine ⟨by simp only [full_data, List.length_append], ?_, ?_, ?_⟩
  · intro i hi
    rw [full_data, List.append_assoc, List.getElem?_append, if_pos hi]
  · intro i hi
    rw [full_data, List.append_assoc, List.getElem?_append, if_neg (by omega),
      Nat.add_sub_cancel_left, List.getElem?_append, if_pos hi]
  · intro i hi
    rw [full_data, List.append_assoc, List.getElem?_append, if_neg (by omega)]
    have hidx : d1.length + d2.length + i - d1.length = d2.length + i := by omega
    rw [hidx, List.getElem?_append, if_neg (by omega), Nat.add_sub_cancel_left]

/-- Witness for C2: merging `[10]`, `[20, 30]`, `[40]` gives a list of
length 4 whose element at index 1 is the first element of the second
input. -/
theorem full_data_length_and_order_witness :
    (full_data [10] [20, 30] [40] : List Nat).length = 1 + 2 + 1 ∧
    (full_data [10] [20, 30] ([40] : List Nat))[1 + 0]? = [20, 30][0]? := by
  have h := full_data_length_and_order [10] [20, 30] ([40] : List Nat)
  exact ⟨h.1, by simpa using h.2.2.1 0 (by decide)⟩

/-- **C9.** The merge only concatenates: the result is exactly
`d1 ++ d2 ++ d3` (insertion order preserved, every entry kept unmodified),
it commutes with any transformation of the entries (so it never inspects
them), and every entry keeps its full multiplicity (no deduplication). -/
theorem full_data_frame {α β : Type} [DecidableEq α]
    (d1 d2 d3 : List α) (f : α → β) (a : α) :
    full_data d1 d2 d3 = d1 ++ d2 ++ d3 ∧
    (full_data d1 d2 d3).map f = full_data (d1.map f) (d2.map f) (d3.map f) ∧
    (full_data d1 d2 d3).count a = d1.count a + d2.count a + d3.count a := by
  refine ⟨rfl, ?_, ?_⟩
  · simp [full_data]
  · simp [full_data, List.count_append]
    omega

/-- **C8.** The count `merge_json` prints is the total number of merged
records `a + b + c` (when the run reaches the print, i.e. neither the
file open nor the dump raised). -/
theorem merge_json_printed_count {α : Type} (env : MergeEnv α)
    (d1 d2 d3 : List α)
    (hopen : env.openScene = .ok ())
    (hdump : env.dump (full_data d1 d2 d3) = .ok ()) :
    MEvent.printedCount (d1.length + d2.length + d3.length)
      ∈ (merge_json env d1 d2 d3).1 := by
  have hlen : (full_data d1 d2 d3).length
      = d1.length + d2.length + d3.length := by
    simp only [full_data, List.length_append]
  simp [merge_json, hopen, hdump, hlen]

/-- A record of the external data modules, modelled per the spec as an
opaque structured entry; `exRecord n` stands for the object with the
single field `"id"` bound to `n`. -/
def exRecord (n : ℤ) : List (String × ℤ) :=
  [("id", n)]

/-- A `merge_json` environment in which opening the output file and the
dump both succeed. -/
def okMergeEnv (α : Type) : MergeEnv α :=
  ⟨.ok (), fun _ => .ok ()⟩

/-- Witness for C8 (the spec's example): merging
`[{"id": 1}]`, `[{"id": 2}, {"id": 3}]`, `[]` prints the count 3. -/
theorem merge_json_printed_count_witness :
    MEvent.printedCount 3
      ∈ (merge_json (okMergeEnv (List (String × ℤ)))
          [exRecord 1] [exRecord 2, exRecord 3] []).1 := by
  have h := merge_json_printed_count (okMergeEnv (List (String × ℤ)))
    [exRecord 1] [exRecord 2, exRecord 3] [] rfl rfl
  simpa using h

/-- **C6.** `merge_json` has no error handling: a failure while opening
the output file or while dumping propagates uncaught (the run ends with
that exception, emitting no events) and the interpreter exits with status
1; only a run in which every step succeeds exits with status 0. -/
theorem merge_json_no_catch {α : Type} (env : MergeEnv α)
    (d1 d2 d3 : List α) :
    (∀ e, env.openScene = .error e →
        merge_json env d1 d2 d3 = ([], some e) ∧
        exitCode (merge_json env d1 d2 d3) = 1) ∧
    (∀ e, env.openScene = .ok () →
        env.dump (full_data d1 d2 d3) = .error e →
        merge_json env d1 d2 d3 = ([], some e) ∧
        exitCode (merge_json env d1 d2 d3) = 1) ∧
    (env.openScene = .ok () →
        env.dump (full_data d1 d2 d3) = .ok () →
        (merge_json env d1 d2 d3).2 = none ∧
        exitCode (merge_json env d1 d2 d3) = 0) := by
  refine ⟨?_, ?_, ?_⟩
  · intro e he
    have hrun : merge_json env d1 d2 d3 = ([], some e) := by
      simp [merge_json, he]
    exact ⟨hrun, by rw [hrun]; rfl⟩
  · intro e hok he
    have hrun : merge_json env d1 d2 d3 = ([], some e) := by
      simp [merge_json, hok, he]
    exact ⟨hrun, by rw [hrun]; rfl⟩
  · intro hok hdump
    have hrun : (merge_json env d1 d2 d3).2 = none := by
      simp [merge_json, hok, hdump]
    exact ⟨hrun, by rw [exitCode, hrun]⟩

/-- A `merge_json` environment in which `json.dump` raises with the given
message (e.g. a record is not JSON serializable). -/
def dumpFailEnv (α : Type) (msg : String) : MergeEnv α :=
  ⟨.ok (), fun _ => .error msg⟩

/-- Witness for C6: a failing dump aborts the run with that uncaught
exception and exit status 1. -/
theorem merge_json_no_catch_witness :
    merge_json (dumpFailEnv ℤ "Object of type set is not JSON serializable")
        [1] [2, 3] []
      = ([], some "Object of type set is not JSON serializable") ∧
    exitCode (merge_json (dumpFailEnv ℤ "Object of type set is not JSON serializable")
        [1] [2, 3] []) = 1 := by
  exact (merge_json_no_catch (dumpFailEnv ℤ "Object of type set is not JSON serializable")
    [1] [2, 3] []).2.1 "Object of type set is not JSON serializable" rfl rfl

/-! ## The JSON document written by `merge_json.py`

`json.dump(full_data, f, indent=2)` renders the merged list as a JSON
array: `[]` when empty, otherwise `[`, a newline, the records each
indented by two spaces and separated by `,` plus a newline, a final
newline and `]`.  The records themselves are opaque (their shape comes
from the external `part1`/`part2`/`part3` modules), so their rendering is
an arbitrary serializer `dumpRec : α → List Char`, and the parsing side
(`json.load`) takes an arbitrary prefix parser `parseRec` for single
records.  Documents are lists of characters. -/

/-- JSON whitespace. -/
def isWsChar (c : Char) : Bool :=
  c = ' ' || c = '\n' || c = '\t' || c = '\r'

/-- Drop leading JSON whitespace. -/
def skipWs : List Char → List Char
  | [] => []
  | c :: rest => if isWsChar c then skipWs rest else c :: rest

/-- The item lines of the indent-2 rendering of a nonempty array: each
record indented by two spaces, records separated by `",\n"`. -/
def dumpItems {α : Type} (dumpRec : α → List Char) : List α → List Char
  | [] => []
  | [a] => ' ' :: ' ' :: dumpRec a
  | a :: rest =>
    ' ' :: ' ' :: (dumpRec a ++ (',' :: '\n' :: dumpItems dumpRec rest))

/-- The document `json.dump(l, f, indent=2)` writes for the list `l`. -/
def dumpDoc {α : Type} (dumpRec : α → List Char) (l : List α) : List Char :=
  match l with
  | [] => ['[', ']']
  | _ => '[' :: '\n' :: (dumpItems dumpRec l ++ ['\n', ']'])

/-- The document `merge_json.py` writes to `public/scene.json`: the
indent-2 rendering of `full_data`. -/
def sceneDocument {α : Type} (dumpRec : α → List Char)
    (data1 data2 data3 : List α) : List Char :=
  dumpDoc dumpRec (full_data data1 data2 data3)

/-- The element loop of the array parser (`json.load` on an array): parse
one record, skip whitespace, then expect `,` (and continue) or `]` (and
require the document to end).  `fuel` bounds the number of elements. -/
def parseItems {α : Type} (parseRec : List Char → Option (α × List Char)) :
    Nat → List Char → Option (List α)
  | 0, _ => none
  | fuel + 1, s =>
    match parseRec s with
    | none => none
    | some (a, rest) =>
      match skipWs rest with
      | [] => none
      | c :: rest2 =>
        if c = ',' then
          match parseItems parseRec fuel (skipWs rest2) with
          | some as => some (a :: as)
          | none => none
        else if c = ']' then
          if skipWs rest2 = [] then some [a] else none
        else none

/-- `json.load` on an array document: skip whitespace, expect `[`, then
either `]` (empty array) or the element loop; the whole document must be
consumed. -/
def parseDoc {α : Type} (parseRec : List Char → Option (α × List Char))
    (s : List Char) : Option (List α) :=
  match skipWs s with
  | '[' :: rest =>
    match skipWs rest with
    | [] => none
    | c :: rest2 =>
      if c = ']' then
        if skipWs rest2 = [] then some [] else none
      else
        parseItems parseRec ((c :: rest2).length + 1) (c :: rest2)
  | _ => none

/-! ### Round-trip lemmas for the document -/

/-- What follows a record in the nonempty-array rendering: either the
closing `"\n]"`, or `",\n"` and the remaining item lines. -/
def itemsTail {α : Type} (dumpRec : α → List Char) : List α → List Char
  | [] => ['\n', ']']
  | l => ',' :: '\n' :: (dumpItems dumpRec l ++ ['\n', ']'])

theorem skipWs_cons_of_not_ws {c : Char} (h : isWsChar c = false)
    (t : List Char) : skipWs (c :: t) = c :: t := by
  simp [skipWs, h]

theorem skipWs_cons_of_ws {c : Char} (h : isWsChar c = true) (t : List Char) :
    skipWs (c :: t) = skipWs t := by
  simp [skipWs, h]

theorem skipWs_eq_self_of_head {α : Type} {dumpRec : α → List Char}
    (hhead : ∀ a, ∃ c t, dumpRec a = c :: t ∧ isWsChar c = false ∧ c ≠ ']')
    (a : α) (x : List Char) : skipWs (dumpRec a ++ x) = dumpRec a ++ x := by
  obtain ⟨c, t, hrec, hws, _⟩ := hhead a
  rw [hrec]
  exact skipWs_cons_of_not_ws hws (t ++ x)

/-- Splitting the item lines of `a :: l` plus the closing `"\n]"` into the
two-space indent, the first record, and its tail. -/
theorem dumpItems_cons_append {α : Type} (dumpRec : α → List Char)
    (a : α) (l : List α) :
    dumpItems dumpRec (a :: l) ++ ['\n', ']']
      = ' ' :: ' ' :: (dumpRec a ++ itemsTail dumpRec l) := by
  cases l with
  | nil => simp [dumpItems, itemsTail]
  | cons b bs => simp [dumpItems, itemsTail]

/-- The element loop inverts the item rendering: parsing
`dumpRec a ++ itemsTail l` with enough fuel yields `a :: l`. -/
theorem parseItems_dump {α : Type} (parseRec : List Char → Option (α × List Char))
    (dumpRec : α → List Char)
    (hrt : ∀ a rest, parseRec (dumpRec a ++ rest) = some (a, rest))
    (hhead : ∀ a, ∃ c t, dumpRec a = c :: t ∧ isWsChar c = false ∧ c ≠ ']') :
    ∀ (l : List α) (a : α) (fuel : Nat), l.length < fuel →
      parseItems parseRec fuel (dumpRec a ++ itemsTail dumpRec l)
        = some (a :: l) := by
  intro l
  induction l with
  | nil =>
    intro a fuel hfuel
    cases fuel with
    | zero => omega
    | succ n =>
      have h1 : skipWs (itemsTail dumpRec ([] : List α)) = [']'] := by
        simp only [itemsTail]
        decide
      simp only [parseItems, hrt, h1]
      simp [skipWs]
  | cons b bs ih =>
    intro a fuel hfuel
    cases fuel with
    | zero => simp at hfuel
    | succ n =>
      have h1 : itemsTail dumpRec (b :: bs)
          = ',' :: '\n' :: (dumpItems dumpRec (b :: bs) ++ ['\n', ']']) := by
        simp [itemsTail]
      have h2 : skipWs (',' :: '\n' :: (dumpItems dumpRec (b :: bs) ++ ['\n', ']']))
          = ',' :: '\n' :: (dumpItems dumpRec (b :: bs) ++ ['\n', ']']) :=
        skipWs_cons_of_not_ws (by decide) _
      have h3 : skipWs ('\n' :: (dumpItems dumpRec (b :: bs) ++ ['\n', ']']))
          = dumpRec b ++ itemsTail dumpRec bs := by
        have hsplit := dumpItems_cons_append dumpRec b bs
        calc skipWs ('\n' :: (dumpItems dumpRec (b :: bs) ++ ['\n', ']']))
            = skipWs (dumpItems dumpRec (b :: bs) ++ ['\n', ']']) :=
              skipWs_cons_of_ws (by decide) _
          _ = skipWs (' ' :: ' ' :: (dumpRec b ++ itemsTail dumpRec bs)) := by
              rw [hsplit]
          _ = skipWs (dumpRec b ++ itemsTail dumpRec bs) := by
              rw [skipWs_cons_of_ws (by decide), skipWs_cons_of_ws (by decide)]
          _ = dumpRec b ++ itemsTail dumpRec bs :=
              skipWs_eq_self_of_head hhead b _
      have hlen : bs.length < n := by
        simp only [List.length_cons] at hfuel
        omega
      simp only [parseItems, hrt, h1, h2]
      simp [h3, ih b n hlen]

/-- Each rendered item line is at least as long as one record (the
two-space indent alone guarantees it). -/
theorem dumpItems_length {α : Type} (dumpRec : α → List Char) :
    ∀ l : List α, l.length ≤ (dumpItems dumpRec l).length := by
  intro l
  induction l with
  | nil => simp [dumpItems]
  | cons a rest ih =>
    cases rest with
    | nil => simp [dumpItems]
    | cons b bs =>
      simp only [dumpItems, List.length_cons, List.length_append] at ih ⊢
      omega

theorem itemsTail_length {α : Type} (dumpRec : α → List Char) (l : List α) :
    l.length ≤ (itemsTail dumpRec l).length := by
  cases l with
  | nil => simp [itemsTail]
  | cons b bs =>
    have h := dumpItems_length dumpRec (b :: bs)
    simp only [itemsTail, List.length_cons, List.length_append] at h ⊢
    omega

/-- `json.load` inverts `json.dump(·, indent=2)` on every list, given a
record parser that inverts the record serializer and records whose
rendering starts with a non-whitespace character other than `]`. -/
theorem parseDoc_dumpDoc {α : Type}
    (parseRec : List Char → Option (α × List Char)) (dumpRec : α → List Char)
    (hrt : ∀ a rest, parseRec (dumpRec a ++ rest) = some (a, rest))
    (hhead : ∀ a, ∃ c t, dumpRec a = c :: t ∧ isWsChar c = false ∧ c ≠ ']') :
    ∀ l : List α, parseDoc parseRec (dumpDoc dumpRec l) = some l := by
  intro l
  cases l with
  | nil => rfl
  | cons a l' =>
    obtain ⟨c, t, hrec, hws, hbr⟩ := hhead a
    have h0 : dumpDoc dumpRec (a :: l')
        = '[' :: '\n' :: (dumpItems dumpRec (a :: l') ++ ['\n', ']']) := rfl
    have h1 : skipWs (dumpDoc dumpRec (a :: l'))
        = '[' :: '\n' :: (dumpItems dumpRec (a :: l') ++ ['\n', ']']) := by
      rw [h0]
      exact skipWs_cons_of_not_ws (by decide) _
    have h2 : skipWs ('\n' :: (dumpItems dumpRec (a :: l') ++ ['\n', ']']))
        = dumpRec a ++ itemsTail dumpRec l' := by
      calc skipWs ('\n' :: (dumpItems dumpRec (a :: l') ++ ['\n', ']']))
          = skipWs (dumpItems dumpRec (a :: l') ++ ['\n', ']']) :=
            skipWs_cons_of_ws (by decide) _
        _ = skipWs (' ' :: ' ' :: (dumpRec a ++ itemsTail dumpRec l')) := by
            rw [dumpItems_cons_append]
        _ = skipWs (dumpRec a ++ itemsTail dumpRec l') := by
            rw [skipWs_cons_of_ws (by decide), skipWs_cons_of_ws (by decide)]
        _ = dumpRec a ++ itemsTail dumpRec l' :=
            skipWs_eq_self_of_head hhead a _
    simp only [parseDoc, h1, h2, hrec, List.cons_append]
    rw [if_neg hbr]
    rw [← List.cons_append, ← hrec]
    apply parseItems_dump parseRec dumpRec hrt hhead
    have h := itemsTail_length dumpRec l'
    simp only [List.length_cons, List.length_append]
    omega

/-- **C5.** Parsing the JSON document `merge_json.py` writes yields
exactly the concatenation of the three input sequences: round-trip
fidelity of serialize-then-parse, for any record serializer/parser pair
in which the parser inverts the serializer and records render as JSON
values (starting with a non-whitespace character other than `]`). -/
theorem merged_document_round_trip {α : Type}
    (parseRec : List Char → Option (α × List Char)) (dumpRec : α → List Char)
    (hrt : ∀ a rest, parseRec (dumpRec a ++ rest) = some (a, rest))
    (hhead : ∀ a, ∃ c t, dumpRec a = c :: t ∧ isWsChar c = false ∧ c ≠ ']')
    (d1 d2 d3 : List α) :
    parseDoc parseRec (sceneDocument dumpRec d1 d2 d3)
      = some (d1 ++ d2 ++ d3) :=
  parseDoc_dumpDoc parseRec dumpRec hrt hhead (full_data d1 d2 d3)

/-- Rendering of a boolean record, as the `json` facility renders the
constants `true` and `false`. -/
def boolDump : Bool → List Char
  | true => ['t', 'r', 'u', 'e']
  | false => ['f', 'a', 'l', 's', 'e']

/-- Prefix parsing of a boolean record. -/
def boolRecParse : List Char → Option (Bool × List Char)
  | 't' :: 'r' :: 'u' :: 'e' :: rest => some (true, rest)
  | 'f' :: 'a' :: 'l' :: 's' :: 'e' :: rest => some (false, rest)
  | _ => none

/-- Witness for C5: with boolean records, parsing the document written
for the inputs `[true]`, `[false, true]`, `[]` returns their
concatenation. -/
theorem merged_document_round_trip_witness :
    parseDoc boolRecParse (sceneDocument boolDump [true] [false, true] [])
      = some ([true] ++ [false, true] ++ []) := by
  have hrt : ∀ (a : Bool) (rest : List Char),
      boolRecParse (boolDump a ++ rest) = some (a, rest) := by
    intro a rest
    cases a <;> rfl
  have hhead : ∀ a : Bool,
      ∃ c t, boolDump a = c :: t ∧ isWsChar c = false ∧ c ≠ ']' := by
    intro a
    cases a with
    | false => exact ⟨'f', ['a', 'l', 's', 'e'], rfl, by decide, by decide⟩
    | true => exact ⟨'t', ['r', 'u', 'e'], rfl, by decide, by decide⟩
  exact merged_document_round_trip boolRecParse boolDump hrt hhead
    [true] [false, true] []

/-- The rendered document for two boolean records is exactly the indent-2
layout `json.dump` produces. -/
example :
    sceneDocument boolDump [true] [false] []
      = ['[', '\n', ' ', ' ', 't', 'r', 'u', 'e', ',', '\n',
          ' ', ' ', 'f', 'a', 'l', 's', 'e', '\n', ']'] := by
  rfl

/-- The parser consumes that document back to the two records. -/
example :
    parseDoc boolRecParse
      ['[', '\n', ' ', ' ', 't', 'r', 'u', 'e', ',', '\n',
        ' ', ' ', 'f', 'a', 'l', 's', 'e', '\n', ']']
      = some [true, false] := by
  rfl
